import Mathlib

/-!
Verification of the uptime-monitor core (src/server.js) against its
natural-language specification.

The probe routine `checkOnce`, the history ring buffer, the alerting logic,
the registry interval normalization, the recovery sweep and the scheduler
tick guard are shallowly embedded below.  Network outcomes and clock reads
are inputs: each attempt of the retry loop consumes one `AttemptEnv`
describing what the HTTP GET returned (a status, or a transport error) and
what the clock read.
-/

namespace Uptime

/-- One recorded check result (the `point` objects built in checkOnce,
src/server.js lines 224-231 and 270-278). -/
structure HistoryPoint where
  t : Nat
  up : Bool
  status : Int
  ms : Nat
  attempt : Nat
  forced : Bool
  error : Option String
deriving Repr, DecidableEq

/-- A monitor record (src/server.js line 24 and the create handler
lines 418-432).  `lastStatus`/`lastLatency`/`lastChecked` start as JS
`null`, modelled by `Option`. -/
structure Monitor where
  id : String
  name : Option String
  url : String
  intervalMs : Int
  history : List HistoryPoint
  lastStatus : Option Int
  lastLatency : Option Nat
  lastChecked : Option Nat
  enabled : Bool
  retryCount : Nat
  lastError : Option String
  consecutiveFailures : Nat
deriving Repr, DecidableEq

/-- The alert object built by triggerAlert (src/server.js lines 34-45),
restricted to the fields the spec's AlertEvent names. -/
structure AlertEvent where
  monitorId : String
  wasUp : Bool
  nowUp : Bool
  error : Option String
  status : Option Int
  latency : Option Nat
deriving Repr, DecidableEq

/-- What one HTTP GET attempt produced: a response with some status code
(validateStatus accepts everything, line 212), or a transport failure. -/
inductive Outcome where
  | resp (status : Int)
  | fail (msg : String)
deriving Repr, DecidableEq

/-- Environment of one attempt: its outcome, the observed latency and the
clock value when the result was recorded. -/
structure AttemptEnv where
  outcome : Outcome
  latency : Nat
  now : Nat
deriving Repr, DecidableEq

/-- src/server.js line 15. -/
def MAX_RETRIES : Nat := 3

/-- The history cap used at lines 247 and 288. -/
def HISTORY_CAP : Nat := 200

/-- src/server.js line 14. -/
def DEFAULT_INTERVAL_MS : Int := 5000

/-- Up classification of a numeric status: `status >= 200 && status < 400`
(line 219). -/
def isUpInt (status : Int) : Bool := decide (200 ≤ status) && decide (status < 400)

/-- Up classification of a possibly-null `lastStatus`
(`monitor.lastStatus >= 200 && monitor.lastStatus < 400`, lines 222 and 267);
JS coerces `null` to 0 in these comparisons, so a never-checked monitor
classifies as not up. -/
def statusUp (s : Option Int) : Bool := isUpInt (s.getD 0)

/-- Down filter of the sweep: `m.lastStatus < 200 || m.lastStatus >= 400`
(lines 320 and 642), again with `null` coercing to 0. -/
def statusDown (s : Option Int) : Bool :=
  decide (s.getD 0 < 200) || decide (400 ≤ s.getD 0)

/-- `monitor.history.push(point); if (monitor.history.length > 200)
monitor.history.shift();` (lines 246-247 and 287-288): append, then drop the
oldest entry when over the cap. -/
def pushCapped (h : List HistoryPoint) (p : HistoryPoint) : List HistoryPoint :=
  let h2 := h ++ [p]
  if HISTORY_CAP < h2.length then h2.tail else h2

/-- The alert record assembled by triggerAlert from the already-updated
monitor (lines 34-45). -/
def mkAlert (m : Monitor) (wasUp nowUp : Bool) (err : Option String) : AlertEvent :=
  { monitorId := m.id, wasUp := wasUp, nowUp := nowUp, error := err,
    status := m.lastStatus, latency := m.lastLatency }

/-- The `point` object of the response branch (lines 224-231). -/
def respPoint (tnow : Nat) (status : Int) (lat attempt : Nat) (isForced : Bool) :
    HistoryPoint :=
  { t := tnow, up := isUpInt status, status := status, ms := lat,
    attempt := attempt, forced := isForced, error := none }

/-- The monitor mutation of the response branch (lines 233-247): overwrite
the canonical fields, clear the error, reset retryCount, update
consecutiveFailures by the up classification, and push the point. -/
def respUpdate (m : Monitor) (tnow : Nat) (status : Int) (lat attempt : Nat)
    (isForced : Bool) : Monitor :=
  { m with lastStatus := some status, lastLatency := some lat,
           lastChecked := some tnow, lastError := none, retryCount := 0,
           consecutiveFailures := if isUpInt status then 0 else m.consecutiveFailures + 1,
           history := pushCapped m.history (respPoint tnow status lat attempt isForced) }

/-- The `point` object of the terminal transport-failure branch
(lines 270-278): status 0 and the error message. -/
def failPoint (tnow : Nat) (msg : String) (lat attempt : Nat) (isForced : Bool) :
    HistoryPoint :=
  { t := tnow, up := false, status := 0, ms := lat,
    attempt := attempt, forced := isForced, error := some msg }

/-- The monitor mutation of the terminal transport-failure branch
(lines 280-288): status 0, error captured, retryCount and
consecutiveFailures incremented, point pushed. -/
def failUpdate (m : Monitor) (tnow : Nat) (msg : String) (lat attempt : Nat)
    (isForced : Bool) : Monitor :=
  { m with lastStatus := some 0, lastLatency := some lat,
           lastChecked := some tnow, lastError := some msg,
           retryCount := m.retryCount + 1,
           consecutiveFailures := m.consecutiveFailures + 1,
           history := pushCapped m.history (failPoint tnow msg lat attempt isForced) }

/-- The retry loop of checkOnce (lines 208-301).  `attempt` is the loop
counter, `envs` supplies the outcome of each remaining attempt and `alerts`
accumulates the alerts emitted so far.  A response updates the monitor,
records a point and alerts on a classification change (lines 218-252),
stopping when up or on the last attempt (line 255); a transport failure
updates, records and possibly alerts only on the last attempt
(lines 269-294), otherwise it retries with the monitor untouched. -/
def checkOnceLoop (m : Monitor) (isForced : Bool) (attempt : Nat)
    (envs : List AttemptEnv) (alerts : List AlertEvent) :
    Monitor × List AlertEvent :=
  match envs with
  | [] => (m, alerts)
  | e :: rest =>
    match e.outcome with
    | Outcome.resp status =>
      let isUp := isUpInt status
      let wasUp := statusUp m.lastStatus
      let m1 := respUpdate m e.now status e.latency attempt isForced
      let alerts1 :=
        if wasUp != isUp then alerts ++ [mkAlert m1 wasUp isUp none] else alerts
      if isUp || attempt == MAX_RETRIES then (m1, alerts1)
      else checkOnceLoop m1 isForced (attempt + 1) rest alerts1
    | Outcome.fail msg =>
      let wasUp := statusUp m.lastStatus
      if attempt == MAX_RETRIES then
        let m1 := failUpdate m e.now msg e.latency attempt isForced
        let alerts1 :=
          if wasUp then alerts ++ [mkAlert m1 wasUp false (some msg)] else alerts
        (m1, alerts1)
      else
        checkOnceLoop m isForced (attempt + 1) rest alerts

/-- checkOnce (lines 200-305): skip when disabled and not forced (line 202),
otherwise run the retry loop from attempt 1.  Returns the updated monitor
and the alerts emitted during the probe. -/
def checkOnce (m : Monitor) (isForced : Bool) (envs : List AttemptEnv) :
    Monitor × List AlertEvent :=
  if !m.enabled && !isForced then (m, []) else checkOnceLoop m isForced 1 envs []

/-- uptimeFromHistory (lines 352-356): 0 on empty history, otherwise
`Math.round((up / total) * 1000) / 10`.  JS `Math.round` rounds half toward
positive infinity, as does Mathlib's `round` on the rationals. -/
def uptimeFromHistory (h : List HistoryPoint) : ℚ :=
  if h.length = 0 then 0
  else ((round ((((h.filter fun p => p.up).length : ℚ) / (h.length : ℚ)) * 1000) : ℤ) : ℚ) / 10

/-- Interval normalization of POST /api/monitors (lines 414-415):
`Number(intervalMs) || DEFAULT_INTERVAL_MS` then clamp below 2000 up to
2000.  `none` models an absent or non-numeric body field (NaN is falsy),
and a supplied 0 is falsy in JS, so both fall back to the default. -/
def createIntervalMs (requested : Option Int) : Int :=
  let iv := match requested with
    | none => DEFAULT_INTERVAL_MS
    | some v => if v == 0 then DEFAULT_INTERVAL_MS else v
  if iv < 2000 then 2000 else iv

/-- Interval handling of PATCH /api/monitors/:id (lines 497-500): a supplied
finite value is stored only when it is at least 2000; anything below the
floor leaves the stored interval unchanged. -/
def patchIntervalMs (current : Int) (requested : Option Int) : Int :=
  match requested with
  | none => current
  | some iv => if decide (2000 ≤ iv) then iv else current

/-- Interval normalization of POST /api/monitors/bulk (line 462):
`Number(intervalMs) || DEFAULT_INTERVAL_MS` with no floor clamp at all. -/
def bulkIntervalMs (requested : Option Int) : Int :=
  match requested with
  | none => DEFAULT_INTERVAL_MS
  | some v => if v == 0 then DEFAULT_INTERVAL_MS else v

/-- One tick of the recovery sweep (lines 640-648): filter the registry to
enabled monitors classified down and run a forced checkOnce on exactly
those; every other monitor is left untouched.  `env` supplies the attempt
outcomes a forced probe of each monitor would observe. -/
def sweepTick (env : Monitor → List AttemptEnv) (ms : List Monitor) : List Monitor :=
  ms.map fun m =>
    if m.enabled && statusDown m.lastStatus then (checkOnce m true (env m)).1 else m

/-- The only guard between a scheduler tick and the body of checkOnce
(line 202): checkOnce returns early iff the monitor is disabled and the call
is not forced.  No other state is consulted. -/
def checkOnceRuns (enabled isForced : Bool) : Bool := !(!enabled && !isForced)

/-- The setInterval callback armed by startTimer (line 338) invokes
checkOnce unforced; `inFlight` counts the checks of this monitor currently
executing.  The callback consults no in-flight flag, so a tick increments
the count whenever the line-202 guard passes. -/
def timerTick (m : Monitor) (inFlight : Nat) : Nat :=
  if checkOnceRuns m.enabled false then inFlight + 1 else inFlight

/-- Per-record update of consecutiveFailures (lines 240-244 and 285):
reset on an up record, increment on a down record. -/
def cfStep (c : Nat) (u : Bool) : Nat := if u then 0 else c + 1

/-- Per-record update of retryCount (lines 237 and 284): any response record
(error field empty) resets it to 0, a terminal transport-failure record
(error field set) increments it. -/
def rcStep (c : Nat) (p : HistoryPoint) : Nat := if p.error.isSome then c + 1 else 0

/-- Number of up/down flips along a list of classifications, starting from a
given previous classification. -/
def countTransitions : Bool → List Bool → Nat
  | _, [] => 0
  | prev, b :: rest => (if prev ≠ b then 1 else 0) + countTransitions b rest

/-- The spec's uptimePct formula, written from its words in section 4.6:
`round(upCount/total * 1000)/10`, one decimal, 0 for an empty history. -/
def uptimePctSpec (upCount total : Nat) : ℚ :=
  if total = 0 then 0
  else ((round (((upCount : ℚ) / (total : ℚ)) * 1000) : ℤ) : ℚ) / 10

/-! ### Concrete fixtures for scenario witnesses and counterexamples -/

/-- An enabled monitor whose last terminal status was 200 (classified up). -/
def upMonitor : Monitor :=
  { id := "up1", name := none, url := "http://a.example", intervalMs := 5000,
    history := [], lastStatus := some 200, lastLatency := some 12,
    lastChecked := some 1000, enabled := true, retryCount := 0,
    lastError := none, consecutiveFailures := 0 }

/-- An enabled monitor whose last terminal status was 500 (classified down). -/
def downMonitor1 : Monitor :=
  { id := "down1", name := none, url := "http://b.example", intervalMs := 5000,
    history := [], lastStatus := some 500, lastLatency := some 30,
    lastChecked := some 1000, enabled := true, retryCount := 0,
    lastError := none, consecutiveFailures := 2 }

/-- An enabled monitor whose last probe exhausted its retries on transport
failures (sentinel status 0, classified down). -/
def downMonitor2 : Monitor :=
  { id := "down2", name := none, url := "http://c.example", intervalMs := 5000,
    history := [], lastStatus := some 0, lastLatency := some 30,
    lastChecked := some 1000, enabled := true, retryCount := 1,
    lastError := some "timeout", consecutiveFailures := 1 }

/-- A disabled monitor. -/
def disabledMonitor : Monitor :=
  { id := "off1", name := none, url := "http://d.example", intervalMs := 5000,
    history := [], lastStatus := some 200, lastLatency := some 9,
    lastChecked := some 1000, enabled := false, retryCount := 0,
    lastError := none, consecutiveFailures := 0 }

/-- An attempt that got an HTTP response with the given status. -/
def respEnv (s : Int) : AttemptEnv :=
  { outcome := Outcome.resp s, latency := 7, now := 2000 }

/-- An attempt that ended in a transport failure. -/
def failEnv : AttemptEnv :=
  { outcome := Outcome.fail "connect ECONNREFUSED", latency := 7, now := 2000 }

/-- Three attempts all answering with the given status. -/
def threeResp (s : Int) : List AttemptEnv := [respEnv s, respEnv s, respEnv s]

/-- Three attempts all ending in transport failure. -/
def threeFail : List AttemptEnv := [failEnv, failEnv, failEnv]

/-- An up history point for the uptimePct scenarios. -/
def upPoint : HistoryPoint :=
  { t := 1, up := true, status := 200, ms := 10, attempt := 1,
    forced := false, error := none }

/-- A down history point for the uptimePct scenarios. -/
def downPoint : HistoryPoint :=
  { t := 2, up := false, status := 500, ms := 10, attempt := 1,
    forced := false, error := none }

/-! ### Lemmas about the capped push -/

lemma pushCapped_length_le (h : List HistoryPoint) (p : HistoryPoint)
    (hle : h.length ≤ HISTORY_CAP) : (pushCapped h p).length ≤ HISTORY_CAP := by
  unfold pushCapped
  dsimp only
  split
  · simp only [List.length_tail, List.length_append, List.length_singleton]
    omega
  · next hgt =>
    simp only [List.length_append, List.length_singleton]
    simp only [not_lt, List.length_append, List.length_singleton] at hgt
    omega

lemma pushCapped_length_ge (h : List HistoryPoint) (p : HistoryPoint) :
    h.length ≤ (pushCapped h p).length := by
  unfold pushCapped
  dsimp only
  split
  · simp only [List.length_tail, List.length_append, List.length_singleton]
    omega
  · simp only [List.length_append, List.length_singleton]
    omega

lemma pushCapped_eq_append (h : List HistoryPoint) (p : HistoryPoint)
    (hlt : h.length < HISTORY_CAP) : pushCapped h p = h ++ [p] := by
  unfold pushCapped
  dsimp only
  split
  · next hgt =>
    simp only [List.length_append, List.length_singleton] at hgt
    omega
  · rfl

/-! ### The history cap is preserved by the retry loop -/

lemma checkOnceLoop_history_le (envs : List AttemptEnv) :
    ∀ (a : Nat) (m : Monitor) (f : Bool) (al : List AlertEvent),
      m.history.length ≤ HISTORY_CAP →
      (checkOnceLoop m f a envs al).1.history.length ≤ HISTORY_CAP := by
  induction envs with
  | nil => intro a m f al h; simpa [checkOnceLoop] using h
  | cons e rest ih =>
    intro a m f al h
    obtain ⟨o, lat, tnow⟩ := e
    cases o with
    | resp status =>
      simp only [checkOnceLoop]
      split
      · simpa [respUpdate] using
          pushCapped_length_le m.history (respPoint tnow status lat a f) h
      · exact ih _ _ _ _
          (by simpa [respUpdate] using
            pushCapped_length_le m.history (respPoint tnow status lat a f) h)
    | fail msg =>
      simp only [checkOnceLoop]
      split
      · simpa [failUpdate] using
          pushCapped_length_le m.history (failPoint tnow msg lat a f) h
      · exact ih _ _ _ _ h

/-! ### Full characterization of the retry loop when the history has room -/

/-- When the history has room for every attempt, the retry loop appends a
block `rec` of freshly recorded points, and: emits one alert per up/down
flip along the records, starting from the prior classification of
`lastStatus`; folds `cfStep` over the records' up flags into
consecutiveFailures; folds `rcStep` over the records into retryCount;
leaves the final classification equal to the last record's up flag; stamps
every record with the probe's forced flag; and every record except possibly
the last is a down record (an up response ends the probe). -/
lemma checkOnceLoop_spec (envs : List AttemptEnv) :
    ∀ (a : Nat) (m : Monitor) (f : Bool) (al : List AlertEvent),
      m.history.length + envs.length ≤ HISTORY_CAP →
      ∃ rec : List HistoryPoint,
        (checkOnceLoop m f a envs al).1.history = m.history ++ rec ∧
        (checkOnceLoop m f a envs al).2.length
          = al.length + countTransitions (statusUp m.lastStatus) (rec.map fun p => p.up) ∧
        (checkOnceLoop m f a envs al).1.consecutiveFailures
          = (rec.map fun p => p.up).foldl cfStep m.consecutiveFailures ∧
        (checkOnceLoop m f a envs al).1.retryCount = rec.foldl rcStep m.retryCount ∧
        statusUp (checkOnceLoop m f a envs al).1.lastStatus
          = (rec.map fun p => p.up).getLastD (statusUp m.lastStatus) ∧
        (∀ p ∈ rec, p.forced = f) ∧
        (∀ p ∈ rec.dropLast, p.up = false) := by
  induction envs with
  | nil =>
    intro a m f al _
    exact ⟨[], by simp [checkOnceLoop, countTransitions]⟩
  | cons e rest ih =>
    intro a m f al hroom
    obtain ⟨o, lat, tnow⟩ := e
    have hlt : m.history.length < HISTORY_CAP := by
      simp only [List.length_cons] at hroom; omega
    cases o with
    | resp status =>
      simp only [checkOnceLoop]
      by_cases hstop : (isUpInt status || a == MAX_RETRIES) = true
      · rw [if_pos hstop]
        refine ⟨[respPoint tnow status lat a f], ?_, ?_, ?_, ?_, ?_, ?_, ?_⟩
        · simp [respUpdate, pushCapped_eq_append _ _ hlt]
        · by_cases hw : statusUp m.lastStatus = isUpInt status
          · simp [countTransitions, respPoint, hw]
          · simp [countTransitions, respPoint, hw, bne_iff_ne, List.length_append]
        · simp [respUpdate, respPoint, cfStep]
        · simp [respUpdate, respPoint, rcStep]
        · simp [respUpdate, respPoint, statusUp, List.getLastD_cons]
        · simp [respPoint]
        · simp
      · rw [if_neg hstop]
        simp only [Bool.or_eq_true, not_or] at hstop
        obtain ⟨hnup, _⟩ := hstop
        rw [Bool.not_eq_true] at hnup
        have hm1hist : (respUpdate m tnow status lat a f).history
            = m.history ++ [respPoint tnow status lat a f] := by
          simp [respUpdate, pushCapped_eq_append _ _ hlt]
        have hroom' : (respUpdate m tnow status lat a f).history.length
            + rest.length ≤ HISTORY_CAP := by
          rw [hm1hist]
          simp only [List.length_append, List.length_cons, List.length_nil] at hroom ⊢
          omega
        obtain ⟨rec', ih1, ih2, ih3, ih4, ih5, ih6, ih7⟩ :=
          ih (a + 1) (respUpdate m tnow status lat a f) f
            (if (statusUp m.lastStatus != isUpInt status) = true then
              al ++ [mkAlert (respUpdate m tnow status lat a f)
                       (statusUp m.lastStatus) (isUpInt status) none]
             else al) hroom'
        have hst : statusUp (respUpdate m tnow status lat a f).lastStatus
            = isUpInt status := by
          simp [respUpdate, statusUp]
        refine ⟨respPoint tnow status lat a f :: rec', ?_, ?_, ?_, ?_, ?_, ?_, ?_⟩
        · rw [ih1, hm1hist]
          simp
        · rw [ih2, hst]
          simp only [List.map_cons, countTransitions, respPoint]
          by_cases hw : statusUp m.lastStatus = isUpInt status
          · simp [hw]
          · have hb : (statusUp m.lastStatus != isUpInt status) = true := by
              simpa [bne_iff_ne] using hw
            rw [if_pos hb, if_pos hw]
            simp only [List.length_append, List.length_singleton]
            omega
        · rw [ih3]
          simp [respUpdate, respPoint, cfStep]
        · rw [ih4]
          simp [respUpdate, respPoint, rcStep]
        · rw [ih5, hst, List.map_cons, List.getLastD_cons]
          rfl
        · intro q hq
          rcases List.mem_cons.mp hq with hq | hq
          · rw [hq]; rfl
          · exact ih6 q hq
        · intro q hq
          match rec', hq with
          | r :: rs, hq =>
            rw [List.dropLast_cons₂] at hq
            rcases List.mem_cons.mp hq with hq | hq
            · rw [hq]
              simpa [respPoint] using hnup
            · exact ih7 q hq
    | fail msg =>
      simp only [checkOnceLoop]
      by_cases hterm : (a == MAX_RETRIES) = true
      · rw [if_pos hterm]
        refine ⟨[failPoint tnow msg lat a f], ?_, ?_, ?_, ?_, ?_, ?_, ?_⟩
        · simp [failUpdate, pushCapped_eq_append _ _ hlt]
        · by_cases hw : statusUp m.lastStatus = true
          · simp [countTransitions, failPoint, hw]
          · rw [Bool.not_eq_true] at hw
            simp [countTransitions, failPoint, hw]
        · simp [failUpdate, failPoint, cfStep]
        · simp [failUpdate, failPoint, rcStep]
        · simp [failUpdate, failPoint, statusUp, isUpInt, List.getLastD_cons]
        · simp [failPoint]
        · simp
      · rw [if_neg hterm]
        have hroom' : m.history.length + rest.length ≤ HISTORY_CAP := by
          simp only [List.length_cons] at hroom; omega
        exact ih (a + 1) m f al hroom'

/-- Steady-state down: when the prior classification is already down and no
attempt produces an up response, the loop emits no alert at all (holds with
or without eviction). -/
lemma checkOnceLoop_no_refire (envs : List AttemptEnv) :
    ∀ (a : Nat) (m : Monitor) (f : Bool) (al : List AlertEvent),
      statusUp m.lastStatus = false →
      (∀ e ∈ envs, ∀ s, e.outcome = Outcome.resp s → isUpInt s = false) →
      (checkOnceLoop m f a envs al).2 = al := by
  induction envs with
  | nil => intro a m f al _ _; rfl
  | cons e rest ih =>
    intro a m f al hdown hall
    obtain ⟨o, lat, tnow⟩ := e
    cases o with
    | resp status =>
      have hnup : isUpInt status = false :=
        hall _ (List.mem_cons_self _ _) status rfl
      simp only [checkOnceLoop, hdown, hnup, bne_self_eq_false,
        Bool.false_eq_true, if_false, Bool.false_or]
      split
      · rfl
      · refine ih _ _ _ _ ?_ ?_
        · simp [respUpdate, statusUp, hnup]
        · intro e2 he s hs
          exact hall e2 (List.mem_cons_of_mem _ he) s hs
    | fail msg =>
      simp only [checkOnceLoop, hdown, Bool.false_eq_true, if_false]
      split
      · rfl
      · refine ih _ _ _ _ hdown ?_
        intro e2 he s hs
        exact hall e2 (List.mem_cons_of_mem _ he) s hs

/-- The loop never shrinks the history. -/
lemma checkOnceLoop_history_mono (envs : List AttemptEnv) :
    ∀ (a : Nat) (m : Monitor) (f : Bool) (al : List AlertEvent),
      m.history.length ≤ (checkOnceLoop m f a envs al).1.history.length := by
  induction envs with
  | nil => intro a m f al; exact le_refl _
  | cons e rest ih =>
    intro a m f al
    obtain ⟨o, lat, tnow⟩ := e
    cases o with
    | resp status =>
      simp only [checkOnceLoop]
      split
      · simpa [respUpdate] using
          pushCapped_length_ge m.history (respPoint tnow status lat a f)
      · exact le_trans
          (by simpa [respUpdate] using
            pushCapped_length_ge m.history (respPoint tnow status lat a f))
          (ih _ _ _ _)
    | fail msg =>
      simp only [checkOnceLoop]
      split
      · simpa [failUpdate] using
          pushCapped_length_ge m.history (failPoint tnow msg lat a f)
      · exact ih _ _ _ _

/-- With enough attempts left to reach the terminal one, the loop records at
least one point: the history grows strictly whenever it is below the cap. -/
lemma checkOnceLoop_history_grows (envs : List AttemptEnv) :
    ∀ (a : Nat) (m : Monitor) (f : Bool) (al : List AlertEvent),
      envs.length + a = MAX_RETRIES + 1 → a ≤ MAX_RETRIES →
      m.history.length < HISTORY_CAP →
      m.history.length < (checkOnceLoop m f a envs al).1.history.length := by
  induction envs with
  | nil =>
    intro a m f al hsum ha _
    simp only [List.length_nil, Nat.zero_add] at hsum
    omega
  | cons e rest ih =>
    intro a m f al hsum ha hlt
    obtain ⟨o, lat, tnow⟩ := e
    have hpush : ∀ p : HistoryPoint,
        m.history.length < (pushCapped m.history p).length := by
      intro p
      rw [pushCapped_eq_append _ _ hlt]
      simp
    cases o with
    | resp status =>
      simp only [checkOnceLoop]
      split
      · simpa [respUpdate] using hpush (respPoint tnow status lat a f)
      · exact lt_of_lt_of_le
          (by simpa [respUpdate] using hpush (respPoint tnow status lat a f))
          (checkOnceLoop_history_mono _ _ _ _ _)
    | fail msg =>
      simp only [checkOnceLoop]
      split
      · simpa [failUpdate] using hpush (failPoint tnow msg lat a f)
      · next hterm =>
        have hane : a ≠ MAX_RETRIES := fun hcontra => by
          simp [hcontra] at hterm
        refine ih (a + 1) m f al ?_ ?_ hlt
        · simp only [List.length_cons] at hsum; omega
        · omega

/-- The newest element of the history after a capped push is the pushed
point. -/
lemma pushCapped_getLast (h : List HistoryPoint) (p : HistoryPoint) :
    (pushCapped h p).getLast? = some p := by
  unfold pushCapped
  dsimp only
  split
  · next hgt =>
    cases h with
    | nil => simp [HISTORY_CAP] at hgt
    | cons x xs =>
      simp only [List.cons_append, List.tail_cons]
      exact List.getLast?_concat _
  · exact List.getLast?_concat _

/-- With enough attempts left to reach the terminal one, the newest history
entry after the loop carries the probe's forced flag. -/
lemma checkOnceLoop_last_forced (envs : List AttemptEnv) :
    ∀ (a : Nat) (m : Monitor) (f : Bool) (al : List AlertEvent),
      envs.length + a = MAX_RETRIES + 1 → a ≤ MAX_RETRIES →
      ∃ p : HistoryPoint,
        (checkOnceLoop m f a envs al).1.history.getLast? = some p ∧ p.forced = f := by
  induction envs with
  | nil =>
    intro a m f al hsum ha
    simp only [List.length_nil, Nat.zero_add] at hsum
    omega
  | cons e rest ih =>
    intro a m f al hsum ha
    obtain ⟨o, lat, tnow⟩ := e
    cases o with
    | resp status =>
      simp only [checkOnceLoop]
      by_cases hstop : (isUpInt status || a == MAX_RETRIES) = true
      · rw [if_pos hstop]
        refine ⟨respPoint tnow status lat a f, ?_, rfl⟩
        simpa [respUpdate] using
          pushCapped_getLast m.history (respPoint tnow status lat a f)
      · rw [if_neg hstop]
        simp only [Bool.or_eq_true, not_or] at hstop
        have hane : a ≠ MAX_RETRIES := fun hcontra => by
          simp [hcontra] at hstop
        refine ih (a + 1) _ f _ ?_ ?_
        · simp only [List.length_cons] at hsum; omega
        · omega
    | fail msg =>
      simp only [checkOnceLoop]
      by_cases hterm : (a == MAX_RETRIES) = true
      · rw [if_pos hterm]
        refine ⟨failPoint tnow msg lat a f, ?_, rfl⟩
        simpa [failUpdate] using
          pushCapped_getLast m.history (failPoint tnow msg lat a f)
      · rw [if_neg hterm]
        have hane : a ≠ MAX_RETRIES := fun hcontra => by
          simp [hcontra] at hterm
        refine ih (a + 1) m f al ?_ ?_
        · simp only [List.length_cons] at hsum; omega
        · omega

/-- If every attempt of a full probe gets an HTTP response — whatever the
status codes — the loop leaves retryCount at 0. -/
lemma checkOnceLoop_allResp_rc (envs : List AttemptEnv) :
    ∀ (a : Nat) (m : Monitor) (f : Bool) (al : List AlertEvent),
      envs.length + a = MAX_RETRIES + 1 → a ≤ MAX_RETRIES →
      (∀ e ∈ envs, ∃ s, e.outcome = Outcome.resp s) →
      (checkOnceLoop m f a envs al).1.retryCount = 0 := by
  induction envs with
  | nil =>
    intro a m f al hsum ha _
    simp only [List.length_nil, Nat.zero_add] at hsum
    omega
  | cons e rest ih =>
    intro a m f al hsum ha hall
    obtain ⟨o, lat, tnow⟩ := e
    cases o with
    | resp status =>
      simp only [checkOnceLoop]
      split
      · rfl
      · next hstop =>
        have hane : a ≠ MAX_RETRIES := fun hcontra => by
          simp [hcontra] at hstop
        refine ih (a + 1) _ f _ ?_ ?_ ?_
        · simp only [List.length_cons] at hsum; omega
        · omega
        · intro e he
          exact hall e (List.mem_cons_of_mem _ he)
    | fail msg =>
      obtain ⟨s, hs⟩ := hall _ (List.mem_cons_self _ _)
      simp at hs

/-- The sweep's down filter is the exact complement of the up
classification. -/
lemma statusDown_eq_not_statusUp (s : Option Int) :
    statusDown s = !statusUp s := by
  rcases s with _ | v
  · rfl
  · simp only [statusDown, statusUp, isUpInt, Option.getD_some]
    rcases lt_or_le v 200 with h | h
    · have h2 : ¬ (200 : Int) ≤ v := not_le.mpr h
      simp [h, h2]
    · rcases lt_or_le v 400 with h4 | h4
      · have h1 : ¬ v < 200 := not_lt.mpr h
        have h5 : ¬ (400 : Int) ≤ v := not_le.mpr h4
        simp [h, h1, h4, h5]
      · have h1 : ¬ v < 200 := not_lt.mpr h
        have h5 : ¬ v < 400 := not_lt.mpr h4
        simp [h, h1, h4, h5]

/-- checkOnce-level corollary of the loop characterization: the block of
points a probe appends determines the emitted alerts, consecutiveFailures
and retryCount; it is empty exactly when the probe was skipped. -/
lemma checkOnce_records (m : Monitor) (f : Bool) (envs : List AttemptEnv)
    (hroom : m.history.length + envs.length ≤ HISTORY_CAP) :
    ∃ rec : List HistoryPoint,
      (checkOnce m f envs).1.history = m.history ++ rec ∧
      (checkOnce m f envs).2.length
        = countTransitions (statusUp m.lastStatus) (rec.map fun p => p.up) ∧
      (checkOnce m f envs).1.consecutiveFailures
        = (rec.map fun p => p.up).foldl cfStep m.consecutiveFailures ∧
      (checkOnce m f envs).1.retryCount = rec.foldl rcStep m.retryCount ∧
      statusUp (checkOnce m f envs).1.lastStatus
        = (rec.map fun p => p.up).getLastD (statusUp m.lastStatus) ∧
      (∀ p ∈ rec, p.forced = f) ∧
      (∀ p ∈ rec.dropLast, p.up = false) := by
  unfold checkOnce
  split
  · exact ⟨[], by simp [countTransitions]⟩
  · obtain ⟨rec, h1, h2, h3, h4, h5, h6, h7⟩ :=
      checkOnceLoop_spec envs 1 m f [] hroom
    refine ⟨rec, h1, ?_, h3, h4, h5, h6, h7⟩
    simpa using h2

/-! ### Claim theorems -/

/-- C1: the single-flight invariant is absent from the code.  The line-202
guard of checkOnce depends only on the enabled and forced flags — never on
any in-flight state, which the program does not track — so a timer tick
that fires while an enabled monitor's check is still in flight starts a
second concurrent execution (two in flight) instead of being skipped. -/
theorem claim_single_flight_missing :
    (∀ e f : Bool, checkOnceRuns e f = (e || f)) ∧
    timerTick upMonitor (timerTick upMonitor 0) = 2 ∧
    ¬ timerTick upMonitor (timerTick upMonitor 0) ≤ 1 := by
  decide

/-- C2: after any probe, a monitor whose history was within the 200-point
cap stays within it; a record on a history below the cap is a pure append
(append-only), and a record landing on a full history evicts the oldest
point before the new one lands (FIFO ring buffer). -/
theorem claim_history_ring_buffer (m : Monitor) (f : Bool) (envs : List AttemptEnv)
    (h : m.history.length ≤ HISTORY_CAP) :
    (checkOnce m f envs).1.history.length ≤ HISTORY_CAP ∧
    (∀ (hist : List HistoryPoint) (p : HistoryPoint), hist.length < HISTORY_CAP →
      pushCapped hist p = hist ++ [p]) ∧
    (∀ (hist : List HistoryPoint) (p : HistoryPoint), hist.length = HISTORY_CAP →
      pushCapped hist p = hist.tail ++ [p]) := by
  refine ⟨?_, ?_, ?_⟩
  · unfold checkOnce
    split
    · exact h
    · exact checkOnceLoop_history_le envs 1 m f [] h
  · exact fun hist p hlt => pushCapped_eq_append hist p hlt
  · intro hist p hcap
    unfold pushCapped
    dsimp only
    rw [if_pos (by simp [hcap])]
    cases hist with
    | nil => simp [HISTORY_CAP] at hcap
    | cons x xs => simp

theorem claim_history_ring_buffer_witness :
    upMonitor.history.length ≤ HISTORY_CAP ∧
    ((checkOnce upMonitor false (threeResp 200)).1.history.length ≤ HISTORY_CAP ∧
     (∀ (hist : List HistoryPoint) (p : HistoryPoint), hist.length < HISTORY_CAP →
       pushCapped hist p = hist ++ [p]) ∧
     (∀ (hist : List HistoryPoint) (p : HistoryPoint), hist.length = HISTORY_CAP →
       pushCapped hist p = hist.tail ++ [p])) :=
  ⟨by decide, claim_history_ring_buffer upMonitor false (threeResp 200) (by decide)⟩

/-- C5: a probe whose three attempts all end in transport failure, on an
enabled monitor with retryCount 0: lastStatus becomes the 0 sentinel,
retryCount becomes 1, the terminal error message is captured in lastError,
and exactly one history point is appended — the terminal attempt's, with
its error field set. -/
theorem claim_transport_failure_probe (m : Monitor) (msg1 msg2 msg3 : String)
    (l1 l2 l3 t1 t2 t3 : Nat) (he : m.enabled = true) (hr : m.retryCount = 0)
    (hh : m.history.length < HISTORY_CAP) :
    (checkOnce m false [⟨Outcome.fail msg1, l1, t1⟩, ⟨Outcome.fail msg2, l2, t2⟩,
        ⟨Outcome.fail msg3, l3, t3⟩]).1.lastStatus = some 0 ∧
    (checkOnce m false [⟨Outcome.fail msg1, l1, t1⟩, ⟨Outcome.fail msg2, l2, t2⟩,
        ⟨Outcome.fail msg3, l3, t3⟩]).1.retryCount = 1 ∧
    (checkOnce m false [⟨Outcome.fail msg1, l1, t1⟩, ⟨Outcome.fail msg2, l2, t2⟩,
        ⟨Outcome.fail msg3, l3, t3⟩]).1.lastError = some msg3 ∧
    (checkOnce m false [⟨Outcome.fail msg1, l1, t1⟩, ⟨Outcome.fail msg2, l2, t2⟩,
        ⟨Outcome.fail msg3, l3, t3⟩]).1.history
      = m.history ++ [failPoint t3 msg3 l3 3 false] := by
  have hstep : (checkOnce m false [⟨Outcome.fail msg1, l1, t1⟩,
      ⟨Outcome.fail msg2, l2, t2⟩, ⟨Outcome.fail msg3, l3, t3⟩]).1
      = failUpdate m t3 msg3 l3 3 false := by
    simp [checkOnce, he, checkOnceLoop, MAX_RETRIES]
  rw [hstep]
  refine ⟨rfl, ?_, rfl, ?_⟩
  · show m.retryCount + 1 = 1
    rw [hr]
  · show pushCapped m.history (failPoint t3 msg3 l3 3 false) = _
    exact pushCapped_eq_append _ _ hh

theorem claim_transport_failure_probe_witness :
    upMonitor.enabled = true ∧ upMonitor.retryCount = 0 ∧
    upMonitor.history.length < HISTORY_CAP ∧
    ((checkOnce upMonitor false [⟨Outcome.fail "a", 1, 10⟩, ⟨Outcome.fail "b", 2, 20⟩,
        ⟨Outcome.fail "c", 3, 30⟩]).1.lastStatus = some 0 ∧
     (checkOnce upMonitor false [⟨Outcome.fail "a", 1, 10⟩, ⟨Outcome.fail "b", 2, 20⟩,
        ⟨Outcome.fail "c", 3, 30⟩]).1.retryCount = 1 ∧
     (checkOnce upMonitor false [⟨Outcome.fail "a", 1, 10⟩, ⟨Outcome.fail "b", 2, 20⟩,
        ⟨Outcome.fail "c", 3, 30⟩]).1.lastError = some "c" ∧
     (checkOnce upMonitor false [⟨Outcome.fail "a", 1, 10⟩, ⟨Outcome.fail "b", 2, 20⟩,
        ⟨Outcome.fail "c", 3, 30⟩]).1.history
       = upMonitor.history ++ [failPoint 30 "c" 3 3 false]) :=
  ⟨rfl, rfl, by decide,
    claim_transport_failure_probe upMonitor "a" "b" "c" 1 2 3 10 20 30 rfl rfl (by decide)⟩

/-- C6 (counterexample): a PATCH that supplies interval 500 on a monitor
whose stored interval is 5000 keeps 5000 — it does not clamp the stored
interval to the 2000 floor — and a bulk create supplying 1500 stores 1500,
below the floor, so not every registry operation leaves intervals at or
above 2000. -/
theorem claim_interval_clamp_counterexample :
    patchIntervalMs 5000 (some 500) = 5000 ∧ (5000 : Int) ≠ 2000 ∧
    bulkIntervalMs (some 1500) = 1500 ∧ ¬ (2000 : Int) ≤ 1500 := by
  decide

/-- C6 (amended): a single create clamps a below-floor interval up to 2000
and never rejects (500 stores 2000, and every created interval is at least
2000); a PATCH never rejects but ignores a below-floor interval, keeping
the prior stored value, so a patched monitor's interval stays at or above
2000 whenever it already was.  (Bulk create applies no floor.) -/
theorem claim_interval_floor (req : Option Int) (cur : Int) (hcur : 2000 ≤ cur) :
    2000 ≤ createIntervalMs req ∧
    createIntervalMs (some 500) = 2000 ∧
    2000 ≤ patchIntervalMs cur req ∧
    (∀ iv : Int, iv < 2000 → patchIntervalMs cur (some iv) = cur) := by
  refine ⟨?_, by decide, ?_, ?_⟩
  · unfold createIntervalMs
    rcases req with _ | v
    · decide
    · dsimp only
      by_cases hv : (v == 0) = true
      · rw [if_pos hv]
        decide
      · rw [if_neg hv]
        split
        · exact le_refl _
        · next hge => omega
  · unfold patchIntervalMs
    rcases req with _ | v
    · exact hcur
    · dsimp only
      split
      · next hdec => exact of_decide_eq_true hdec
      · exact hcur
  · intro iv hlt
    have : ¬ (2000 : Int) ≤ iv := not_le.mpr hlt
    simp [patchIntervalMs, this]

theorem claim_interval_floor_witness :
    (2000 : Int) ≤ 5000 ∧
    (2000 ≤ createIntervalMs (some 500) ∧
     createIntervalMs (some 500) = 2000 ∧
     2000 ≤ patchIntervalMs 5000 (some 500) ∧
     (∀ iv : Int, iv < 2000 → patchIntervalMs 5000 (some iv) = 5000)) :=
  ⟨by decide, claim_interval_floor (some 500) 5000 (by decide)⟩

/-- C7: uptimeFromHistory is the pure spec formula
round(upCount/total * 1000)/10 — 0 on an empty history — and the three
scenario values hold: empty gives 0, one up point gives 100, one up and
one down point give 50. -/
theorem claim_uptime_pct :
    (∀ h : List HistoryPoint,
       uptimeFromHistory h = uptimePctSpec ((h.filter fun p => p.up).length) h.length) ∧
    uptimeFromHistory [] = 0 ∧
    uptimeFromHistory [upPoint] = 100 ∧
    uptimeFromHistory [upPoint, downPoint] = 50 := by
  refine ⟨fun h => rfl, rfl, ?_, ?_⟩
  · show uptimeFromHistory [upPoint] = 100
    rw [uptimeFromHistory]
    norm_num [upPoint, List.filter, round_eq]
  · show uptimeFromHistory [upPoint, downPoint] = 50
    rw [uptimeFromHistory]
    norm_num [upPoint, downPoint, List.filter, round_eq]

/-- C3 (counterexample): starting from an up monitor (lastStatus 200), a
probe whose attempts answer 500 then 200 leaves the per-probe up/down
classification unchanged — up before, up after the terminal attempt, so
the claim predicts no alert — yet two alerts are emitted: the code alerts
at every recorded attempt whose classification flipped, not once per probe
against the terminal result. -/
theorem claim_alert_iff_transition_counterexample :
    statusUp upMonitor.lastStatus = true ∧
    statusUp (checkOnce upMonitor false
      [respEnv 500, respEnv 200, respEnv 200]).1.lastStatus = true ∧
    (checkOnce upMonitor false [respEnv 500, respEnv 200, respEnv 200]).2.length = 2 := by
  refine ⟨rfl, rfl, rfl⟩

/-- C3 (amended): a probe emits exactly one alert per change of the up/down
classification across its recorded attempts (each HTTP-responded attempt
and a terminal transport failure), starting from the prior lastStatus
classification — so a single-record probe alerts iff wasUp differs from
nowUp — and when the classification is already down and no attempt answers
up (repeated down results), no alert is ever re-fired. -/
theorem claim_alert_per_recorded_transition (m : Monitor) (f : Bool)
    (envs : List AttemptEnv)
    (hroom : m.history.length + envs.length ≤ HISTORY_CAP) :
    ((checkOnce m f envs).2.length
       = countTransitions (statusUp m.lastStatus)
           (((checkOnce m f envs).1.history.drop m.history.length).map fun p => p.up)) ∧
    (statusUp m.lastStatus = false →
      (∀ e ∈ envs, ∀ s : Int, e.outcome = Outcome.resp s → isUpInt s = false) →
      (checkOnce m f envs).2 = []) := by
  obtain ⟨rec, h1, h2, h3, h4, h5, h6, h7⟩ := checkOnce_records m f envs hroom
  constructor
  · rw [h2, h1, List.drop_left]
  · intro hdown hall
    unfold checkOnce
    split
    · rfl
    · exact checkOnceLoop_no_refire envs 1 m f [] hdown hall

theorem claim_alert_per_recorded_transition_witness :
    upMonitor.history.length + (threeResp 500).length ≤ HISTORY_CAP ∧
    (((checkOnce upMonitor false (threeResp 500)).2.length
        = countTransitions (statusUp upMonitor.lastStatus)
            (((checkOnce upMonitor false (threeResp 500)).1.history.drop
                upMonitor.history.length).map fun p => p.up)) ∧
     (statusUp upMonitor.lastStatus = false →
       (∀ e ∈ threeResp 500, ∀ s : Int, e.outcome = Outcome.resp s → isUpInt s = false) →
       (checkOnce upMonitor false (threeResp 500)).2 = [])) :=
  ⟨by decide, claim_alert_per_recorded_transition upMonitor false (threeResp 500) (by decide)⟩

/-- C4 (counterexample): a probe whose three attempts all answer 500, on a
monitor with consecutiveFailures 0, increments consecutiveFailures three
times — once per recorded down attempt — not exactly once per probe as the
claim states. -/
theorem claim_consecutive_failures_counterexample :
    upMonitor.consecutiveFailures = 0 ∧
    (checkOnce upMonitor false (threeResp 500)).1.consecutiveFailures = 3 ∧
    (3 : Nat) ≠ 1 := by
  refine ⟨rfl, rfl, by decide⟩

/-- C4 (amended): consecutiveFailures is updated once per recorded attempt —
reset to 0 by an up record and incremented by one by each non-up record
(the cfStep fold over the appended block), so a probe with several recorded
down attempts increments it several times — and every appended record
except possibly the last is down: an up response always ends the probe, so
the reset to zero happens exactly on an up terminal result. -/
theorem claim_consecutive_failures_per_record (m : Monitor) (f : Bool)
    (envs : List AttemptEnv)
    (hroom : m.history.length + envs.length ≤ HISTORY_CAP) :
    ((checkOnce m f envs).1.consecutiveFailures
       = (((checkOnce m f envs).1.history.drop m.history.length).map fun p => p.up).foldl
           cfStep m.consecutiveFailures) ∧
    (∀ p ∈ ((checkOnce m f envs).1.history.drop m.history.length).dropLast,
       p.up = false) := by
  obtain ⟨rec, h1, h2, h3, h4, h5, h6, h7⟩ := checkOnce_records m f envs hroom
  rw [h1, List.drop_left]
  exact ⟨h3, h7⟩

theorem claim_consecutive_failures_per_record_witness :
    upMonitor.history.length + (threeResp 500).length ≤ HISTORY_CAP ∧
    (((checkOnce upMonitor false (threeResp 500)).1.consecutiveFailures
        = (((checkOnce upMonitor false (threeResp 500)).1.history.drop
             upMonitor.history.length).map fun p => p.up).foldl
            cfStep upMonitor.consecutiveFailures) ∧
     (∀ p ∈ ((checkOnce upMonitor false (threeResp 500)).1.history.drop
         upMonitor.history.length).dropLast, p.up = false)) :=
  ⟨by decide, claim_consecutive_failures_per_record upMonitor false (threeResp 500) (by decide)⟩

/-- C10 (counterexample): two consecutive probes both end in a terminal
transport failure (lastStatus 0 after each), so a count of consecutive
transport-terminal probes would be 2 — but because the second probe's first
attempt got an HTTP 500 response, which reset retryCount to 0 mid-probe,
retryCount is 1, not 2. -/
theorem claim_retry_count_counterexample :
    (checkOnce upMonitor false threeFail).1.lastStatus = some 0 ∧
    (checkOnce (checkOnce upMonitor false threeFail).1 false
        [respEnv 500, failEnv, failEnv]).1.lastStatus = some 0 ∧
    (checkOnce (checkOnce upMonitor false threeFail).1 false
        [respEnv 500, failEnv, failEnv]).1.retryCount = 1 ∧
    (1 : Nat) ≠ 2 := by
  refine ⟨rfl, rfl, rfl, by decide⟩

/-- C10 (amended): every HTTP-responded attempt — any status code, including
responses classified down — resets retryCount to 0, and a terminal
transport-failure record increments it by one (the rcStep fold over the
appended block): retryCount therefore counts terminal transport failures
since the most recent HTTP response, an intervening response even mid-probe
restarting the count, and a full probe whose every attempt gets a response
(e.g. a target consistently answering 500) leaves retryCount at 0. -/
theorem claim_retry_count_reset_on_response (m : Monitor) (f : Bool)
    (envs : List AttemptEnv)
    (hroom : m.history.length + envs.length ≤ HISTORY_CAP) :
    ((checkOnce m f envs).1.retryCount
       = ((checkOnce m f envs).1.history.drop m.history.length).foldl
           rcStep m.retryCount) ∧
    (envs.length = MAX_RETRIES → (m.enabled = true ∨ f = true) →
      (∀ e ∈ envs, ∃ s : Int, e.outcome = Outcome.resp s) →
      (checkOnce m f envs).1.retryCount = 0) := by
  obtain ⟨rec, h1, h2, h3, h4, h5, h6, h7⟩ := checkOnce_records m f envs hroom
  constructor
  · rw [h4, h1, List.drop_left]
  · intro hlen hrun hall
    have hguard : (!m.enabled && !f) = false := by
      rcases hrun with h | h <;> rw [h] <;> simp
    unfold checkOnce
    rw [hguard]
    simp only [Bool.false_eq_true, if_false]
    exact checkOnceLoop_allResp_rc envs 1 m f [] (by rw [hlen]) (by decide) hall

theorem claim_retry_count_reset_on_response_witness :
    upMonitor.history.length + (threeResp 500).length ≤ HISTORY_CAP ∧
    (((checkOnce upMonitor false (threeResp 500)).1.retryCount
        = ((checkOnce upMonitor false (threeResp 500)).1.history.drop
             upMonitor.history.length).foldl rcStep upMonitor.retryCount) ∧
     ((threeResp 500).length = MAX_RETRIES → (upMonitor.enabled = true ∨ false = true) →
       (∀ e ∈ threeResp 500, ∃ s : Int, e.outcome = Outcome.resp s) →
       (checkOnce upMonitor false (threeResp 500)).1.retryCount = 0)) :=
  ⟨by decide, claim_retry_count_reset_on_response upMonitor false (threeResp 500) (by decide)⟩

/-- C8: a sweep tick force-checks — with forced = true — exactly the enabled
monitors whose lastStatus classifies down (outside [200,400), null coerced
to 0), and returns every other monitor unchanged; in particular every up
monitor keeps its whole state, including lastChecked. -/
theorem claim_sweep_exactly_down (env : Monitor → List AttemptEnv)
    (ms : List Monitor) (i : Nat) (m : Monitor) (hm : ms[i]? = some m) :
    (sweepTick env ms).length = ms.length ∧
    ((m.enabled && statusDown m.lastStatus) = true →
       (sweepTick env ms)[i]? = some (checkOnce m true (env m)).1) ∧
    ((m.enabled && statusDown m.lastStatus) = false →
       (sweepTick env ms)[i]? = some m) ∧
    (statusUp m.lastStatus = true →
       (sweepTick env ms)[i]? = some m ∧
       ((sweepTick env ms)[i]?.map fun x => x.lastChecked) = some m.lastChecked) := by
  have hget : (sweepTick env ms)[i]?
      = some (if m.enabled && statusDown m.lastStatus
              then (checkOnce m true (env m)).1 else m) := by
    simp [sweepTick, hm]
  refine ⟨by simp [sweepTick], ?_, ?_, ?_⟩
  · intro hc
    rw [hget, if_pos hc]
  · intro hc
    rw [hget, if_neg (by simp [hc])]
  · intro hup
    have hdown : statusDown m.lastStatus = false := by
      rw [statusDown_eq_not_statusUp, hup]
      rfl
    have hc : (m.enabled && statusDown m.lastStatus) = false := by
      rw [hdown]
      simp
    constructor
    · rw [hget, if_neg (by simp [hc])]
    · rw [hget, if_neg (by simp [hc])]
      rfl

theorem claim_sweep_exactly_down_witness :
    [downMonitor1, downMonitor2, upMonitor][2]? = some upMonitor ∧
    (sweepTick (fun _ => threeResp 200) [downMonitor1, downMonitor2, upMonitor])[2]?
      = some upMonitor :=
  ⟨rfl,
    ((claim_sweep_exactly_down (fun _ => threeResp 200)
      [downMonitor1, downMonitor2, upMonitor] 2 upMonitor rfl).2.2.2 rfl).1⟩

/-- C9: an unforced check on a disabled monitor returns immediately without
modifying the monitor and emits nothing, while a forced check bypasses the
enabled guard: with the full three-attempt budget it runs the probe on the
disabled monitor and appends history — the history strictly grows below the
cap, and its newest point carries forced = true. -/
theorem claim_disabled_guard_forced_bypass (m : Monitor) (envs : List AttemptEnv)
    (hd : m.enabled = false) (hlen : envs.length = MAX_RETRIES)
    (hcap : m.history.length < HISTORY_CAP) :
    checkOnce m false envs = (m, []) ∧
    m.history.length < (checkOnce m true envs).1.history.length ∧
    (∃ p : HistoryPoint,
      (checkOnce m true envs).1.history.getLast? = some p ∧ p.forced = true) := by
  have hforced : checkOnce m true envs = checkOnceLoop m true 1 envs [] := by
    simp [checkOnce]
  refine ⟨by simp [checkOnce, hd], ?_, ?_⟩
  · rw [hforced]
    exact checkOnceLoop_history_grows envs 1 m true [] (by rw [hlen]) (by decide) hcap
  · rw [hforced]
    exact checkOnceLoop_last_forced envs 1 m true [] (by rw [hlen]) (by decide)

theorem claim_disabled_guard_forced_bypass_witness :
    disabledMonitor.enabled = false ∧ threeFail.length = MAX_RETRIES ∧
    disabledMonitor.history.length < HISTORY_CAP ∧
    (checkOnce disabledMonitor false threeFail = (disabledMonitor, []) ∧
     disabledMonitor.history.length
       < (checkOnce disabledMonitor true threeFail).1.history.length ∧
     (∃ p : HistoryPoint,
       (checkOnce disabledMonitor true threeFail).1.history.getLast? = some p ∧
       p.forced = true)) :=
  ⟨rfl, rfl, by decide,
    claim_disabled_guard_forced_bypass disabledMonitor threeFail rfl rfl (by decide)⟩

end Uptime
